import Mathlib

/-!
Shallow embedding of the data/aggregation core of `storage.js`
(Fleet Dashboard / Field Activity Tracking System).

The JavaScript source keeps three collections (drivers, vehicles,
activities) in localStorage and exposes CRUD, query, aggregation and
export/import operations over them.  We embed the store state as a
structure of lists, JS numbers as an inductive that distinguishes NaN,
and each operation as a Lean function translated clause-by-clause from
the source.  Nondeterministic inputs of the runtime (the fresh id from
`crypto.randomUUID`, the current clock) become explicit parameters.
-/

namespace Fleet

/-- A JS number: either an actual (rational) value or NaN.  JSON input
never carries NaN, but `Number(...)` coercion of a non-numeric string
produces it and it propagates through `+`. -/
inductive JsNum where
  | nan
  | num (q : ℚ)
deriving DecidableEq, Repr

/-- JS `+` on numbers: NaN propagates. -/
def jsAdd : JsNum → JsNum → JsNum
  | .nan, _ => .nan
  | _, .nan => .nan
  | .num a, .num b => .num (a + b)

/-- A dynamic JS value as it occurs in the data fields we model
(`revenue` / `cost` can hold a number or an arbitrary string coming
from an imported JSON document). -/
inductive JSVal where
  | vnum (q : ℚ)
  | vstr (s : String)
deriving DecidableEq, Repr

/-- JS truthiness of a value: `0` and `""` are falsy. -/
def truthyV : JSVal → Bool
  | .vnum q => q != 0
  | .vstr s => s != ""

/-- Numeric value of a digit list (most significant first). -/
def digitsVal (cs : List Char) : ℕ :=
  cs.foldl (fun a c => a * 10 + (c.toNat - 48)) 0

/-- Parse an unsigned decimal literal `digits[.digits]` (at least one
digit overall), as JS `Number` does for plain decimal strings. -/
def parseUnsigned (t : List Char) : Option ℚ :=
  let intPart := t.takeWhile (·.isDigit)
  let rest := t.dropWhile (·.isDigit)
  match rest with
  | [] => if intPart.isEmpty then none else some (digitsVal intPart)
  | '.' :: frac =>
      if frac.all (·.isDigit) && (!intPart.isEmpty || !frac.isEmpty) then
        some ((digitsVal intPart : ℚ) + (digitsVal frac : ℚ) / (10 ^ frac.length))
      else none
  | _ => none

/-- JS `Number(string)` on the decimal fragment of the grammar: trims
whitespace, the empty string converts to `0`, an optionally signed
decimal literal converts to its value, anything else (in particular the
non-numeric strings this program can meet) to NaN. -/
def strToNumber (s : String) : JsNum :=
  let t := s.trim.data
  match t with
  | [] => .num 0
  | '-' :: rest => match parseUnsigned rest with
      | some q => .num (-q)
      | none => .nan
  | '+' :: rest => match parseUnsigned rest with
      | some q => .num q
      | none => .nan
  | _ => match parseUnsigned t with
      | some q => .num q
      | none => .nan

/-- JS `Number(v)` on the values we model. -/
def toNumber : JSVal → JsNum
  | .vnum q => .num q
  | .vstr s => strToNumber s

/-- JS `x || d` for a possibly-absent value `x`: `undefined` and falsy
values fall through to the default. -/
def orElseV (x : Option JSVal) (d : JSVal) : JSVal :=
  match x with
  | some v => if truthyV v then v else d
  | none => d

/-- JS `s || d` for a possibly-absent string (`""` is falsy). -/
def orElseS (x : Option String) (d : String) : String :=
  match x with
  | some s => if s != "" then s else d
  | none => d

/- ### Records

Field presence follows the JS objects: fields that every record of the
program carries are plain, fields that may be absent (legacy imports,
optional form data) are `Option`. -/

structure Driver where
  id : String
  name : String
  assignedVehicleId : String
deriving DecidableEq, Repr

structure Vehicle where
  id : String
  label : String
deriving DecidableEq, Repr

structure Activity where
  id : String
  driverId : String
  vehicleId : String
  location : Option String := none
  date : String
  revenue : Option JSVal := none
  routeName : Option String := none
  cost : Option JSVal := none
deriving DecidableEq, Repr

/-- The three localStorage-backed collections. -/
structure StoreState where
  drivers : List Driver
  vehicles : List Vehicle
  activities : List Activity
deriving DecidableEq, Repr

/- ### Aggregation -/

/-- `Number(a.revenue || 0)` — the coercion every aggregation read
performs on an activity's revenue. -/
def revenueNum (a : Activity) : JsNum :=
  toNumber (orElseV a.revenue (.vnum 0))

/-- `activities.reduce((sum, a) => sum + Number(a.revenue || 0), 0)`. -/
def totalRev (acts : List Activity) : JsNum :=
  acts.foldl (fun s a => jsAdd s (revenueNum a)) (.num 0)

/-- The overall totals of `initSummaryPage`:
`totalActivities = activities.length`,
`totalRevenue = activities.reduce((sum, a) => sum + Number(a.revenue || 0), 0)`. -/
def overallTotals (acts : List Activity) : ℕ × JsNum :=
  (acts.length, totalRev acts)

/-- The spec's per-activity revenue contribution, written from the
spec's words for comparison with the code: `max(0, numeric(a.revenue))`
with absent or malformed (non-numeric) revenue treated as 0. -/
def specRevContrib (r : Option JSVal) : ℚ :=
  max 0 (match r with
    | none => 0
    | some v => match toNumber v with
        | .num q => q
        | .nan => 0)

/-- The spec's total revenue: the sum of the non-negative contributions. -/
def specTotalRevenue (acts : List Activity) : ℚ :=
  (acts.map (fun a => specRevContrib a.revenue)).sum

/- ### Entity repository (CRUD)

`generateId` draws on `crypto.randomUUID`, so the fresh id is an
explicit parameter of each creating operation. -/

/-- `addDriver(name, assignedVehicleId = "")`: builds
`{ id: generateId("drv"), name: name.trim(), assignedVehicleId }`,
pushes it and saves.  There is no validation in this function. -/
def addDriver (freshId name assignedVehicleId : String) (st : StoreState) :
    Driver × StoreState :=
  let newDriver : Driver := { id := freshId, name := name.trim, assignedVehicleId }
  (newDriver, { st with drivers := st.drivers ++ [newDriver] })

/-- `addVehicle(label)`. -/
def addVehicle (freshId label : String) (st : StoreState) :
    Vehicle × StoreState :=
  let newVehicle : Vehicle := { id := freshId, label := label.trim }
  (newVehicle, { st with vehicles := st.vehicles ++ [newVehicle] })

/-- Partial fields for `updateDriver`: a present entry stands for an own
property of the JS `fields` object (spread last, so it wins). -/
structure DriverFields where
  id : Option String := none
  name : Option String := none
  assignedVehicleId : Option String := none
deriving DecidableEq, Repr

/-- `{ ...d, ...fields }`. -/
def mergeDriver (d : Driver) (f : DriverFields) : Driver :=
  { id := f.id.getD d.id,
    name := f.name.getD d.name,
    assignedVehicleId := f.assignedVehicleId.getD d.assignedVehicleId }

/-- Replace the first element satisfying `p` by its update, returning
the updated element — the `findIndex` / assign-at-index pattern of
`updateDriver` / `updateActivity`. -/
def updateFirst (p : α → Bool) (upd : α → α) : List α → Option α × List α
  | [] => (none, [])
  | x :: xs =>
      if p x then (some (upd x), upd x :: xs)
      else
        let r := updateFirst p upd xs
        (r.1, x :: r.2)

/-- `updateDriver(driverId, fields)`: merge onto the first record with
that id, else return null and leave the store as it is. -/
def updateDriver (driverId : String) (f : DriverFields) (st : StoreState) :
    Option Driver × StoreState :=
  let r := updateFirst (fun d => d.id == driverId) (fun d => mergeDriver d f) st.drivers
  (r.1, { st with drivers := r.2 })

/-- The caller-supplied activity object of `addActivity(activity)`:
every field is optional because the JS object carries exactly the own
properties the caller chose to put there.  Spread AFTER the generated
id, so a caller-supplied `id` overwrites the fresh one. -/
structure ActivityInput where
  id : Option String := none
  driverId : String
  vehicleId : String
  location : Option String := none
  date : String
  revenue : Option JSVal := none
  routeName : Option String := none
  cost : Option JSVal := none
deriving DecidableEq, Repr

/-- `addActivity(activity)`: `{ id: generateId("act"), ...activity }`. -/
def addActivity (freshId : String) (inp : ActivityInput) (st : StoreState) :
    Activity × StoreState :=
  let newActivity : Activity :=
    { id := inp.id.getD freshId,
      driverId := inp.driverId,
      vehicleId := inp.vehicleId,
      location := inp.location,
      date := inp.date,
      revenue := inp.revenue,
      routeName := inp.routeName,
      cost := inp.cost }
  (newActivity, { st with activities := st.activities ++ [newActivity] })

/-- Partial fields for `updateActivity`. -/
structure ActivityFields where
  id : Option String := none
  driverId : Option String := none
  vehicleId : Option String := none
  location : Option String := none
  date : Option String := none
  revenue : Option JSVal := none
deriving DecidableEq, Repr

/-- `{ ...a, ...fields }`. -/
def mergeActivity (a : Activity) (f : ActivityFields) : Activity :=
  { id := f.id.getD a.id,
    driverId := f.driverId.getD a.driverId,
    vehicleId := f.vehicleId.getD a.vehicleId,
    location := match f.location with | some s => some s | none => a.location,
    date := f.date.getD a.date,
    revenue := match f.revenue with | some v => some v | none => a.revenue,
    routeName := a.routeName,
    cost := a.cost }

/-- `updateActivity(activityId, fields)`. -/
def updateActivity (activityId : String) (f : ActivityFields) (st : StoreState) :
    Option Activity × StoreState :=
  let r := updateFirst (fun a => a.id == activityId) (fun a => mergeActivity a f) st.activities
  (r.1, { st with activities := r.2 })

/-- `deleteActivity(activityId)`: keep the records whose id differs. -/
def deleteActivity (activityId : String) (st : StoreState) : StoreState :=
  { st with activities := st.activities.filter (fun a => a.id != activityId) }

/- ### Backward-compatibility shim (`addRoute` / `updateRoute`) -/

/-- A legacy route record as `addRoute(route)` reads it. -/
structure RouteInput where
  driverId : String
  vehicleId : String
  routeName : Option String := none
  date : String
  cost : Option JSVal := none
deriving DecidableEq, Repr

/-- `addRoute(route)`: builds the converted activity
`{ driverId, vehicleId, location: route.routeName || "",
   date, revenue: route.cost || 0 }` and delegates to `addActivity`. -/
def addRoute (freshId : String) (route : RouteInput) (st : StoreState) :
    Activity × StoreState :=
  let convertedRoute : ActivityInput :=
    { driverId := route.driverId,
      vehicleId := route.vehicleId,
      location := some (orElseS route.routeName ""),
      date := route.date,
      revenue := some (orElseV route.cost (.vnum 0)) }
  addActivity freshId convertedRoute st

/-- Legacy partial fields as `updateRoute(routeId, fields)` reads them. -/
structure RouteFields where
  driverId : Option String := none
  vehicleId : Option String := none
  routeName : Option String := none
  date : Option String := none
  cost : Option JSVal := none
deriving DecidableEq, Repr

/-- Truthiness of a possibly-absent string (`if (fields.x)`). -/
def truthyS : Option String → Bool
  | some s => s != ""
  | none => false

/-- The `converted` object `updateRoute` builds: truthiness-guarded
copies for driverId/vehicleId/routeName/date, a `!== undefined` check
for `cost` (so a zero cost is still copied). -/
def convertRouteFields (f : RouteFields) : ActivityFields :=
  { driverId := if truthyS f.driverId then f.driverId else none,
    vehicleId := if truthyS f.vehicleId then f.vehicleId else none,
    location := if truthyS f.routeName then f.routeName else none,
    date := if truthyS f.date then f.date else none,
    revenue := f.cost }

/-- `updateRoute(routeId, fields)`. -/
def updateRoute (routeId : String) (f : RouteFields) (st : StoreState) :
    Option Activity × StoreState :=
  updateActivity routeId (convertRouteFields f) st

/- ### Query functions -/

/-- Reject when the lower bound is truthy (non-null, non-empty) and the
date falls below it: `if (startDate && a.date < startDate) return false`. -/
def belowLow (startDate : Option String) (d : String) : Bool :=
  match startDate with
  | some s => s != "" && d < s
  | none => false

/-- `if (endDate && a.date > endDate) return false`. -/
def aboveHigh (endDate : Option String) (d : String) : Bool :=
  match endDate with
  | some e => e != "" && e < d
  | none => false

/-- `getActivitiesByDriver(driverId, startDate = null, endDate = null)`. -/
def getActivitiesByDriver (driverId : String) (startDate endDate : Option String)
    (acts : List Activity) : List Activity :=
  acts.filter (fun a =>
    a.driverId == driverId && !belowLow startDate a.date && !aboveHigh endDate a.date)

/-- `getActivitiesByVehicle(vehicleId, startDate = null, endDate = null)`. -/
def getActivitiesByVehicle (vehicleId : String) (startDate endDate : Option String)
    (acts : List Activity) : List Activity :=
  acts.filter (fun a =>
    a.vehicleId == vehicleId && !belowLow startDate a.date && !aboveHigh endDate a.date)

/-- `getActivitiesByPeriod(startDate, endDate)`:
`activities.filter((a) => a.date >= startDate && a.date <= endDate)`. -/
def getActivitiesByPeriod (startDate endDate : String) (acts : List Activity) :
    List Activity :=
  acts.filter (fun a => startDate ≤ a.date && a.date ≤ endDate)

/- ### Summaries and the clock

`new Date()` and `getTodayString()` read the ambient clock; we pass the
clock explicitly: `nowMs` is the current epoch time in milliseconds and
`today` the current date in the `YYYY-MM-DD` shape `getTodayString`
yields from the same clock. -/

/-- Day count from the civil epoch 1970-01-01 (proleptic Gregorian),
the arithmetic behind `Date.UTC` for a year/month/day triple. -/
def daysFromCivil (y : ℤ) (m d : ℕ) : ℤ :=
  let y' : ℤ := if m ≤ 2 then y - 1 else y
  let era : ℤ := (if 0 ≤ y' then y' else y' - 399) / 400
  let yoe : ℤ := y' - era * 400
  let mp : ℤ := (m + 9 : ℤ) % 12
  let doy : ℤ := (153 * mp + 2) / 5 + d - 1
  let doe : ℤ := yoe * 365 + yoe / 4 - yoe / 100 + doy
  era * 146097 + doe - 719468

/-- Days of each month (leap-year aware). -/
def daysInMonth (y : ℤ) (m : ℕ) : ℕ :=
  if m = 2 then (if y % 4 = 0 ∧ (y % 100 ≠ 0 ∨ y % 400 = 0) then 29 else 28)
  else if m = 4 ∨ m = 6 ∨ m = 9 ∨ m = 11 then 30
  else 31

/-- `new Date(isoDate)` on a date-only string: a well-formed
`YYYY-MM-DD` parses to UTC midnight in epoch milliseconds, anything
else is an Invalid Date, i.e. a NaN time value, modelled as `none`. -/
def parseDate (s : String) : Option ℤ :=
  match s.data with
  | [y1, y2, y3, y4, '-', m1, m2, '-', d1, d2] =>
      if [y1, y2, y3, y4, m1, m2, d1, d2].all (·.isDigit) then
        let y : ℤ := digitsVal [y1, y2, y3, y4]
        let m : ℕ := digitsVal [m1, m2]
        let d : ℕ := digitsVal [d1, d2]
        if 1 ≤ m ∧ m ≤ 12 ∧ 1 ≤ d ∧ d ≤ daysInMonth y m then
          some (daysFromCivil y m d * 86400000)
        else none
      else none
  | _ => none

/-- `isWithinDays(isoDate, daysBack)`: `diffDays = (now - target) /
86400000; return diffDays <= daysBack`.  An unparsable date gives a NaN
difference, and `NaN <= daysBack` is false. -/
def isWithinDays (nowMs : ℤ) (isoDate : String) (daysBack : ℕ) : Bool :=
  match parseDate isoDate with
  | none => false
  | some target => decide ((nowMs - target : ℚ) / 86400000 ≤ daysBack)

/-- The inner `summarize(filterFn)` of `computeSummary`: a single
`forEach` pass accumulating a count and a revenue sum. -/
def summarize (filterFn : Activity → Bool) (acts : List Activity) : ℕ × JsNum :=
  acts.foldl
    (fun acc a =>
      if filterFn a then (acc.1 + 1, jsAdd acc.2 (revenueNum a)) else acc)
    (0, .num 0)

/-- The result of `computeSummary`. -/
structure Summary where
  daily : ℕ × JsNum
  weekly : ℕ × JsNum
  monthly : ℕ × JsNum
deriving DecidableEq, Repr

/-- `computeSummary()` with the ambient clock made explicit (`today =
getTodayString()`, `nowMs` the time `new Date()` reads inside
`isWithinDays`). -/
def computeSummary (today : String) (nowMs : ℤ) (acts : List Activity) : Summary :=
  { daily := summarize (fun a => a.date == today) acts,
    weekly := summarize (fun a => isWithinDays nowMs a.date 7) acts,
    monthly := summarize (fun a => isWithinDays nowMs a.date 30) acts }

/-- The custom period report of `initSummaryPage`: alert and bail out
when `startDate > endDate`, otherwise filter the period inline and
reduce the revenue.  `none` models the alert-and-return branch. -/
def customRangeSummary (startDate endDate : String) (acts : List Activity) :
    Option (ℕ × JsNum) :=
  if endDate < startDate then none
  else
    let periodActivities := acts.filter (fun a => startDate ≤ a.date && a.date ≤ endDate)
    some (periodActivities.length,
      periodActivities.foldl (fun s a => jsAdd s (revenueNum a)) (.num 0))

/- ### Export / import -/

/-- One top-level field of a parsed JSON document, as the import path
discriminates it: absent, present but not an array, or an array of
records. -/
inductive JsonField (α : Type) where
  | absent
  | nonArray
  | arr (xs : List α)
deriving DecidableEq, Repr

/-- `Array.isArray` on the field. -/
def JsonField.isArr : JsonField α → Bool
  | .arr _ => true
  | _ => false

/-- `Array.isArray(f) ? f : []`-style elimination. -/
def JsonField.arrOr (f : JsonField α) (d : List α) : List α :=
  match f with
  | .arr xs => xs
  | _ => d

/-- A parsed import document that passed the object check; only the
fields the importer looks at are modelled. -/
structure ImportDoc where
  drivers : JsonField Driver := .absent
  vehicles : JsonField Vehicle := .absent
  activities : JsonField Activity := .absent
  routes : JsonField Activity := .absent
deriving DecidableEq, Repr

/-- What `JSON.parse(e.target.result)` produced: a parse exception, a
primitive (null, number, string or boolean — every one of these fails
the `!parsed || typeof parsed !== "object"` guard), or an object. -/
inductive ImportInput where
  | badJson
  | nonObject
  | obj (d : ImportDoc)
deriving DecidableEq, Repr

/-- What reaches `onComplete`: `(null, { drivers, vehicles, activities })`
on success, an error on failure. -/
inductive ImportOutcome where
  | ok (drivers : List Driver) (vehicles : List Vehicle) (activities : List Activity)
  | error
deriving DecidableEq, Repr

/-- `importDataFromFile`: on a parse failure or a non-object payload the
catch block reports the error and nothing is saved; on an object the
three collections are replaced, with empty-array defaults for missing
or non-array `drivers` / `vehicles`, and `activities` falling back to
the legacy `routes` array. -/
def importDataFromFile (inp : ImportInput) (st : StoreState) :
    StoreState × ImportOutcome :=
  match inp with
  | .badJson => (st, .error)
  | .nonObject => (st, .error)
  | .obj d =>
      let drivers := d.drivers.arrOr []
      let vehicles := d.vehicles.arrOr []
      let activities := d.activities.arrOr (d.routes.arrOr [])
      ({ drivers, vehicles, activities }, .ok drivers vehicles activities)

/-- The payload `exportData` serializes. -/
structure ExportPayload where
  drivers : List Driver
  vehicles : List Vehicle
  activities : List Activity
  exportedAt : String
  version : ℕ
deriving DecidableEq, Repr

/-- `exportData()` (the timestamp comes from the ambient clock and is
passed in). -/
def exportData (exportedAt : String) (st : StoreState) : ExportPayload :=
  { drivers := st.drivers,
    vehicles := st.vehicles,
    activities := st.activities,
    exportedAt,
    version := 2 }

/-- Parsing the serialized export payload back yields an object whose
three collection fields are arrays and which has no `routes` field. -/
def ExportPayload.toDoc (p : ExportPayload) : ImportDoc :=
  { drivers := .arr p.drivers,
    vehicles := .arr p.vehicles,
    activities := .arr p.activities,
    routes := .absent }

/- ### Sequences of repository operations -/

/-- One repository mutation, with the nondeterministic fresh id (where
the operation generates one) made explicit. -/
inductive Op where
  | addDriver (freshId name assignedVehicleId : String)
  | updateDriver (driverId : String) (f : DriverFields)
  | addVehicle (freshId label : String)
  | addActivity (freshId : String) (inp : ActivityInput)
  | updateActivity (activityId : String) (f : ActivityFields)
  | deleteActivity (activityId : String)
deriving DecidableEq, Repr

/-- Effect of one operation on the store. -/
def stepOp (op : Op) (st : StoreState) : StoreState :=
  match op with
  | .addDriver fid name veh => (addDriver fid name veh st).2
  | .updateDriver i f => (updateDriver i f st).2
  | .addVehicle fid label => (addVehicle fid label st).2
  | .addActivity fid inp => (addActivity fid inp st).2
  | .updateActivity i f => (updateActivity i f st).2
  | .deleteActivity i => deleteActivity i st

/-- Run a list of operations left to right. -/
def runOps (ops : List Op) (st : StoreState) : StoreState :=
  ops.foldl (fun s op => stepOp op s) st

/-- The per-collection id lists of a store. -/
def driverIds (st : StoreState) : List String := st.drivers.map Driver.id

def vehicleIds (st : StoreState) : List String := st.vehicles.map Vehicle.id

def activityIds (st : StoreState) : List String := st.activities.map Activity.id

/-- Every id unique within its collection. -/
def NodupIds (st : StoreState) : Prop :=
  (driverIds st).Nodup ∧ (vehicleIds st).Nodup ∧ (activityIds st).Nodup

/-- Hygiene of one operation relative to the state it runs in: a
generated id is genuinely fresh (what `crypto.randomUUID` delivers with
overwhelming probability) and no caller smuggles an `id` through the
partial-fields object or the `addActivity` payload (no call site of the
program does). -/
def GoodOp (st : StoreState) : Op → Prop
  | .addDriver fid _ _ => fid ∉ driverIds st
  | .updateDriver _ f => f.id = none
  | .addVehicle fid _ => fid ∉ vehicleIds st
  | .addActivity fid inp => inp.id = none ∧ fid ∉ activityIds st
  | .updateActivity _ f => f.id = none
  | .deleteActivity _ => True

/-- Hygiene of a whole sequence, each operation judged at the state it
actually sees. -/
def GoodSeq : List Op → StoreState → Prop
  | [], _ => True
  | op :: ops, st => GoodOp st op ∧ GoodSeq ops (stepOp op st)

/- ### Claim-side definitions and concrete instances -/

/-- The claim's "within N days" condition, written from the claim's
words: the difference `now − parsedDate` is at most `N` days.  An
unparsable date gives a NaN difference, which satisfies no comparison,
so only dates that actually parse can qualify. -/
def withinDaysClaim (nowMs : ℤ) (n : ℕ) (d : String) : Bool :=
  match parseDate d with
  | some t => decide ((nowMs - t : ℚ) ≤ n * 86400000)
  | none => false

/-- An activity whose stored revenue is the (malformed, per the data
model) number −50. -/
def c1Act : Activity :=
  { id := "act-1", driverId := "drv-1", vehicleId := "veh-1",
    location := some "Accra", date := "2026-01-10", revenue := some (.vnum (-50)) }

/-- A well-formed activity for the C1 witness. -/
def c1WAct : Activity :=
  { id := "act-2", driverId := "drv-1", vehicleId := "veh-1",
    location := some "Kumasi", date := "2026-01-12", revenue := some (.vnum 150) }

/-- The activity used by the C2 witness. -/
def c2Act : Activity :=
  { id := "act-1", driverId := "drv-1", vehicleId := "veh-1",
    location := some "Accra", date := "2026-01-10", revenue := some (.vnum 150) }

/-- The empty store. -/
def c4Store : StoreState := { drivers := [], vehicles := [], activities := [] }

/-- The legacy route record of the spec's concrete scenario:
`{id:"rte-1", driverId:"drv-1", vehicleId:"veh-1", routeName:"X",
date:"2026-01-01", cost:50}` — `location` and `revenue` absent. -/
def c5Rte : Activity :=
  { id := "rte-1", driverId := "drv-1", vehicleId := "veh-1",
    date := "2026-01-01", routeName := some "X", cost := some (.vnum 50) }

/-- The import document `{routes:[c5Rte]}` of the scenario. -/
def c5Doc : ImportDoc := { routes := .arr [c5Rte] }

/-- A store with one driver, for refuting unconditional id
immutability. -/
def c6Store : StoreState :=
  { drivers := [{ id := "drv-1", name := "Ama", assignedVehicleId := "" }],
    vehicles := [], activities := [] }

/-- A document whose `drivers` field is present but not an array and
whose `vehicles` field is absent. -/
def c7Doc : ImportDoc := { drivers := .nonArray, activities := .arr [c2Act] }

/-- A future-dated activity (relative to the witness clock 0 =
1970-01-01T00:00Z). -/
def c9Act : Activity :=
  { id := "act-1", driverId := "drv-1", vehicleId := "veh-1",
    date := "2026-01-10", revenue := some (.vnum 150) }

/-- Concrete shim inputs for the C10 witness. -/
def c10Route : RouteInput :=
  { driverId := "drv-1", vehicleId := "veh-1", routeName := some "X",
    date := "2026-01-01", cost := some (.vnum 50) }

/-- Legacy update fields with a truthy routeName and a falsy (zero)
cost. -/
def c10Fields : RouteFields := { routeName := some "Y", cost := some (.vnum 0) }

/- ### Helper lemmas -/

theorem jsAdd_num_zero_left (x : JsNum) : jsAdd (.num 0) x = x := by
  cases x <;> simp [jsAdd]

theorem jsAdd_assoc (x y z : JsNum) :
    jsAdd (jsAdd x y) z = jsAdd x (jsAdd y z) := by
  cases x <;> cases y <;> cases z <;> simp [jsAdd, add_assoc]

/-- Shifting the accumulator out of the revenue fold. -/
theorem foldl_rev_acc (l : List Activity) :
    ∀ acc : JsNum,
      l.foldl (fun s a => jsAdd s (revenueNum a)) acc = jsAdd acc (totalRev l) := by
  induction l with
  | nil => intro acc; cases acc <;> simp [totalRev, jsAdd]
  | cons x xs ih =>
      intro acc
      simp only [totalRev, List.foldl_cons] at *
      rw [ih, ih (jsAdd (.num 0) (revenueNum x)), jsAdd_num_zero_left, jsAdd_assoc]

/-- Peeling one activity off the revenue sum. -/
theorem totalRev_cons (x : Activity) (l : List Activity) :
    totalRev (x :: l) = jsAdd (revenueNum x) (totalRev l) := by
  rw [show totalRev (x :: l)
        = l.foldl (fun s a => jsAdd s (revenueNum a)) (jsAdd (.num 0) (revenueNum x)) from rfl,
    foldl_rev_acc, jsAdd_num_zero_left]

/-- The one-pass `summarize` accumulation equals filtering first. -/
theorem summarize_eq_filter (f : Activity → Bool) (l : List Activity) :
    summarize f l = ((l.filter f).length, totalRev (l.filter f)) := by
  suffices h : ∀ (n : ℕ) (acc : JsNum),
      l.foldl (fun acc a => if f a then (acc.1 + 1, jsAdd acc.2 (revenueNum a)) else acc)
        (n, acc) =
      (n + (l.filter f).length, jsAdd acc (totalRev (l.filter f))) by
    have := h 0 (.num 0)
    simpa [summarize, jsAdd_num_zero_left] using this
  induction l with
  | nil => intro n acc; cases acc <;> simp [totalRev, jsAdd]
  | cons x xs ih =>
      intro n acc
      by_cases hx : f x
      · simp only [List.foldl_cons, List.filter_cons, hx, if_pos, ih, totalRev_cons,
          List.length_cons, Prod.mk.injEq]
        exact ⟨by omega, jsAdd_assoc _ _ _⟩
      · simp only [List.foldl_cons, List.filter_cons, hx, if_neg, ih]
        simp

/-- `updateFirst` with an id-preserving update leaves the id image of
the list unchanged. -/
theorem updateFirst_map_eq {α β : Type} (p : α → Bool) (upd : α → α) (g : α → β)
    (hg : ∀ a, g (upd a) = g a) :
    ∀ l : List α, (updateFirst p upd l).2.map g = l.map g := by
  intro l
  induction l with
  | nil => simp [updateFirst]
  | cons x xs ih =>
      by_cases hx : p x
      · simp [updateFirst, hx, hg]
      · simp [updateFirst, hx, ih]

/- ### Claim C1 -/

/-- C1 counterexample: on a store holding one activity with revenue
−50 the code's overall total revenue is −50, while the claim's
`sum(max(0, numeric(a.revenue)))` is 0 — the aggregation performs no
`max(0, ·)` clamp, so the claim as stated is false. -/
theorem c1_overall_totals_counterexample :
    (overallTotals [c1Act]).2 ≠ .num (specTotalRevenue [c1Act]) := by
  have h1 : (overallTotals [c1Act]).2 = .num (-50) := by
    simp [overallTotals, totalRev, revenueNum, orElseV, truthyV, toNumber, c1Act, jsAdd]
  have h2 : specTotalRevenue [c1Act] = 0 := by
    simp [specTotalRevenue, specRevContrib, c1Act, toNumber]
  rw [h1, h2]
  intro h
  exact absurd (JsNum.num.inj h) (by norm_num)

/-- C1 (amended): for every stored activity collection in which each
activity's revenue is absent or a non-negative number — the shape the
data model prescribes — the overall totals of `initSummaryPage` satisfy
the claim: the count is the collection's length and the total revenue
is `sum(max(0, numeric(a.revenue)))` with absent revenue treated as 0.
(On revenue values outside the data model the code clamps nothing: a
negative number contributes negatively and a non-numeric string makes
the whole sum NaN.) -/
theorem c1_overall_totals_amended (acts : List Activity)
    (h : ∀ a ∈ acts, a.revenue = none ∨ ∃ q : ℚ, a.revenue = some (.vnum q) ∧ 0 ≤ q) :
    (overallTotals acts).1 = acts.length ∧
      (overallTotals acts).2 = .num (specTotalRevenue acts) := by
  refine ⟨rfl, ?_⟩
  show totalRev acts = .num (specTotalRevenue acts)
  revert h
  induction acts with
  | nil => intro _; simp [totalRev, specTotalRevenue]
  | cons x xs ih =>
      intro h
      have hx := h x (List.mem_cons_self x xs)
      have ihx := ih (fun a ha => h a (List.mem_cons_of_mem x ha))
      have hspec : specTotalRevenue (x :: xs) = specRevContrib x.revenue + specTotalRevenue xs := by
        simp [specTotalRevenue]
      rw [totalRev_cons, ihx, hspec]
      rcases hx with h0 | ⟨q, hq, hq0⟩
      · simp [revenueNum, h0, orElseV, toNumber, jsAdd, specRevContrib]
      · have hrev : revenueNum x = .num q := by
          by_cases q0 : q = 0
          · simp [revenueNum, hq, orElseV, truthyV, toNumber, q0]
          · simp [revenueNum, hq, orElseV, truthyV, toNumber, q0]
        have hc : specRevContrib x.revenue = q := by
          simp [specRevContrib, hq, toNumber, max_eq_right hq0]
        rw [hrev, hc]
        simp [jsAdd]

/-- C1 witness: the amended theorem applied to a concrete one-activity
store with revenue 150. -/
theorem c1_overall_totals_witness :
    (∀ a ∈ [c1WAct], a.revenue = none ∨ ∃ q : ℚ, a.revenue = some (.vnum q) ∧ 0 ≤ q) ∧
      (overallTotals [c1WAct]).1 = 1 ∧
      (overallTotals [c1WAct]).2 = .num (specTotalRevenue [c1WAct]) := by
  have hyp : ∀ a ∈ [c1WAct], a.revenue = none ∨ ∃ q : ℚ, a.revenue = some (.vnum q) ∧ 0 ≤ q := by
    intro a ha
    rw [List.mem_singleton] at ha
    subst ha
    exact Or.inr ⟨150, rfl, by norm_num⟩
  have h := c1_overall_totals_amended [c1WAct] hyp
  exact ⟨hyp, by simpa using h.1, h.2⟩

/- ### Claim C2 -/

/-- C2: with non-empty bounds, `getActivitiesByDriver` keeps exactly the
stored activities matching the driver whose date lies in the inclusive
interval `[s, e]` under lexicographic string comparison;
`getActivitiesByVehicle` is symmetric; `getActivitiesByPeriod` keeps
exactly the stored activities with `s ≤ date ≤ e`, regardless of driver
or vehicle. -/
theorem c2_filter_correctness (acts : List Activity) (a : Activity)
    (d v s e : String) (hs : s ≠ "") (he : e ≠ "") :
    (a ∈ getActivitiesByDriver d (some s) (some e) acts ↔
      a ∈ acts ∧ (a.driverId = d ∧ s ≤ a.date ∧ a.date ≤ e)) ∧
    (a ∈ getActivitiesByVehicle v (some s) (some e) acts ↔
      a ∈ acts ∧ (a.vehicleId = v ∧ s ≤ a.date ∧ a.date ≤ e)) ∧
    (a ∈ getActivitiesByPeriod s e acts ↔
      a ∈ acts ∧ (s ≤ a.date ∧ a.date ≤ e)) := by
  refine ⟨?_, ?_, ?_⟩ <;>
    simp [getActivitiesByDriver, getActivitiesByVehicle, getActivitiesByPeriod,
      belowLow, aboveHigh, List.mem_filter, hs, he, not_lt, and_assoc]

/-- C2 witness: the filter characterization instantiated on a concrete
store, driver, vehicle and bounds. -/
theorem c2_filter_correctness_witness :
    ("2026-01-01" ≠ "" ∧ "2026-12-31" ≠ "") ∧
    ((c2Act ∈ getActivitiesByDriver "drv-1" (some "2026-01-01") (some "2026-12-31") [c2Act] ↔
      c2Act ∈ [c2Act] ∧ (c2Act.driverId = "drv-1" ∧ "2026-01-01" ≤ c2Act.date ∧ c2Act.date ≤ "2026-12-31")) ∧
     (c2Act ∈ getActivitiesByVehicle "veh-1" (some "2026-01-01") (some "2026-12-31") [c2Act] ↔
      c2Act ∈ [c2Act] ∧ (c2Act.vehicleId = "veh-1" ∧ "2026-01-01" ≤ c2Act.date ∧ c2Act.date ≤ "2026-12-31")) ∧
     (c2Act ∈ getActivitiesByPeriod "2026-01-01" "2026-12-31" [c2Act] ↔
      c2Act ∈ [c2Act] ∧ ("2026-01-01" ≤ c2Act.date ∧ c2Act.date ≤ "2026-12-31"))) :=
  ⟨⟨by decide, by decide⟩,
    c2_filter_correctness [c2Act] c2Act "drv-1" "veh-1" "2026-01-01" "2026-12-31"
      (by decide) (by decide)⟩

/- ### Claim C3 -/

/-- C3: importing the parsed form of the document `exportData` produces
restores exactly the drivers, vehicles and activities that were in the
store at export time (order and content), whatever the prior store
held. -/
theorem c3_export_import_roundtrip (st prior : StoreState) (exportedAt : String) :
    importDataFromFile (.obj (exportData exportedAt st).toDoc) prior =
      (st, .ok st.drivers st.vehicles st.activities) := rfl

/- ### Claim C4 -/

/-- C4 counterexample: `addDriver` with a whitespace-only name is not a
no-op — it appends a driver with empty name, so the stored drivers
collection changes. -/
theorem c4_addDriver_counterexample :
    (addDriver "drv-1" "   " "" c4Store).2.drivers ≠ c4Store.drivers := by
  simp [addDriver, c4Store]

/-- C4 (amended): `addDriver` performs no validation at all: for every
name — including names empty after trimming — it appends a driver
whose name is the trimmed input and whose id is the newly assigned
fresh id, leaving the other collections alone.  The empty-name check
the spec describes lives in the routes-page form handler, which returns
before calling `addDriver`; `addDriver` itself never no-ops. -/
theorem c4_addDriver_amended (freshId name assignedVehicleId : String) (st : StoreState) :
    (addDriver freshId name assignedVehicleId st).2.drivers =
      st.drivers ++ [{ id := freshId, name := name.trim, assignedVehicleId }] ∧
    (addDriver freshId name assignedVehicleId st).1 =
      { id := freshId, name := name.trim, assignedVehicleId } ∧
    (addDriver freshId name assignedVehicleId st).2.vehicles = st.vehicles ∧
    (addDriver freshId name assignedVehicleId st).2.activities = st.activities :=
  ⟨rfl, rfl, rfl, rfl⟩

/- ### Claim C5 -/

/-- C5: when the parsed import document has no `activities` array but
does carry a legacy `routes` array, the `routes` records are stored as
the activity list verbatim — list equality, so every legacy field
(`routeName`, `cost`) survives unchanged and nothing is renamed to
`location` / `revenue` on this path. -/
theorem c5_legacy_routes_verbatim (d : ImportDoc) (st : StoreState) (rs : List Activity)
    (hact : d.activities.isArr = false) (hroutes : d.routes = .arr rs) :
    (importDataFromFile (.obj d) st).1.activities = rs ∧
    (importDataFromFile (.obj d) st).2 =
      .ok (d.drivers.arrOr []) (d.vehicles.arrOr []) rs := by
  cases hA : d.activities <;>
    simp_all [importDataFromFile, JsonField.isArr, JsonField.arrOr]

/-- C5 witness: importing the scenario document stores exactly that one
record, `routeName`/`cost` intact, `location`/`revenue` still absent. -/
theorem c5_legacy_routes_witness :
    (c5Doc.activities.isArr = false ∧ c5Doc.routes = .arr [c5Rte]) ∧
    (importDataFromFile (.obj c5Doc) c4Store).1.activities = [c5Rte] ∧
    (importDataFromFile (.obj c5Doc) c4Store).2 =
      .ok (c5Doc.drivers.arrOr []) (c5Doc.vehicles.arrOr []) [c5Rte] :=
  ⟨⟨rfl, rfl⟩, c5_legacy_routes_verbatim c5Doc c4Store [c5Rte] rfl rfl⟩

/- ### Claim C6 -/

/-- C6 counterexample: `updateDriver` merges with `{ ...old, ...fields }`,
fields spread last, so a partial-fields argument carrying an `id` key
overwrites the record's id — the claim's "for every partial-fields
argument" is false. -/
theorem c6_id_immutability_counterexample :
    driverIds (updateDriver "drv-1" { id := some "drv-2" } c6Store).2 ≠
      driverIds c6Store := by
  simp [driverIds, updateDriver, updateFirst, mergeDriver, c6Store]

/-- `mergeDriver` keeps the id when the fields carry none. -/
theorem mergeDriver_id_eq (f : DriverFields) (h : f.id = none) (d : Driver) :
    (mergeDriver d f).id = d.id := by
  simp [mergeDriver, h]

/-- `mergeActivity` keeps the id when the fields carry none. -/
theorem mergeActivity_id_eq (f : ActivityFields) (h : f.id = none) (a : Activity) :
    (mergeActivity a f).id = a.id := by
  simp [mergeActivity, h]

/-- A hygienic operation preserves uniqueness of ids in every
collection. -/
theorem stepOp_nodup (op : Op) (st : StoreState)
    (hg : GoodOp st op) (h : NodupIds st) : NodupIds (stepOp op st) := by
  obtain ⟨hd, hv, ha⟩ := h
  cases op with
  | addDriver fid name veh =>
      refine ⟨?_, hv, ha⟩
      have : driverIds (stepOp (.addDriver fid name veh) st) = driverIds st ++ [fid] := by
        simp [driverIds, stepOp, addDriver]
      rw [this]
      exact List.nodup_append.mpr
        ⟨hd, List.nodup_singleton _, by simpa [List.disjoint_singleton] using hg⟩
  | updateDriver i f =>
      refine ⟨?_, hv, ha⟩
      have : driverIds (stepOp (.updateDriver i f) st) = driverIds st :=
        updateFirst_map_eq _ _ _ (mergeDriver_id_eq f hg) st.drivers
      rw [this]; exact hd
  | addVehicle fid label =>
      refine ⟨hd, ?_, ha⟩
      have : vehicleIds (stepOp (.addVehicle fid label) st) = vehicleIds st ++ [fid] := by
        simp [vehicleIds, stepOp, addVehicle]
      rw [this]
      exact List.nodup_append.mpr
        ⟨hv, List.nodup_singleton _, by simpa [List.disjoint_singleton] using hg⟩
  | addActivity fid inp =>
      refine ⟨hd, hv, ?_⟩
      obtain ⟨hid, hfresh⟩ := hg
      have : activityIds (stepOp (.addActivity fid inp) st) = activityIds st ++ [fid] := by
        simp [activityIds, stepOp, addActivity, hid]
      rw [this]
      exact List.nodup_append.mpr
        ⟨ha, List.nodup_singleton _, by simpa [List.disjoint_singleton] using hfresh⟩
  | updateActivity i f =>
      refine ⟨hd, hv, ?_⟩
      have : activityIds (stepOp (.updateActivity i f) st) = activityIds st :=
        updateFirst_map_eq _ _ _ (mergeActivity_id_eq f hg) st.activities
      rw [this]; exact ha
  | deleteActivity i =>
      refine ⟨hd, hv, ?_⟩
      have : (activityIds (stepOp (.deleteActivity i) st)).Sublist (activityIds st) :=
        (List.filter_sublist st.activities).map Activity.id
      exact ha.sublist this

/-- Uniqueness is preserved along any hygienic operation sequence. -/
theorem runOps_nodup (ops : List Op) :
    ∀ st : StoreState, NodupIds st → GoodSeq ops st → NodupIds (runOps ops st) := by
  induction ops with
  | nil => intro st h _; simpa [runOps] using h
  | cons op ops ih =>
      intro st h hg
      obtain ⟨hop, hseq⟩ := hg
      have : runOps (op :: ops) st = runOps ops (stepOp op st) := by
        simp [runOps]
      rw [this]
      exact ih (stepOp op st) (stepOp_nodup op st hop h) hseq

/-- C6 (amended): id immutability and uniqueness hold exactly under the
hygiene every call site of the program observes — update fields never
carry an `id` key and `addActivity` payloads never carry one, and each
generated id is fresh.  Then `updateDriver` and `updateActivity` leave
the id sequence of their collection unchanged (in particular the
matched record's id), and every hygienic operation sequence run from a
store with unique ids ends in a store with unique ids.  (Without the
hygiene the property fails: a `fields.id` is spread over the record and
overwrites its id, as the counterexample shows.) -/
theorem c6_id_immutability_amended :
    (∀ (i : String) (f : DriverFields) (st : StoreState), f.id = none →
      driverIds (updateDriver i f st).2 = driverIds st) ∧
    (∀ (i : String) (f : ActivityFields) (st : StoreState), f.id = none →
      activityIds (updateActivity i f st).2 = activityIds st) ∧
    (∀ (ops : List Op) (st : StoreState),
      NodupIds st → GoodSeq ops st → NodupIds (runOps ops st)) :=
  ⟨fun _ f st hf => updateFirst_map_eq _ _ _ (mergeDriver_id_eq f hf) st.drivers,
   fun _ f st hf => updateFirst_map_eq _ _ _ (mergeActivity_id_eq f hf) st.activities,
   fun ops st h hg => runOps_nodup ops st h hg⟩

/-- C6 witness: the amended theorem applied to a concrete store and a
concrete hygienic sequence (an update without id, an add with a fresh
id, a delete). -/
theorem c6_id_immutability_witness :
    driverIds (updateDriver "drv-1" { name := some "Ama Serwaa" } c6Store).2 =
      driverIds c6Store ∧
    NodupIds (runOps
      [.updateDriver "drv-1" { name := some "Ama Serwaa" },
       .addActivity "act-9" { driverId := "drv-1", vehicleId := "veh-1", date := "2026-02-01" },
       .deleteActivity "act-9"] c6Store) := by
  refine ⟨c6_id_immutability_amended.1 "drv-1" _ c6Store rfl,
    c6_id_immutability_amended.2.2 _ c6Store ⟨by decide, by decide, by decide⟩ ?_⟩
  refine ⟨rfl, ⟨rfl, ?_⟩, trivial, trivial⟩
  show "act-9" ∉ activityIds (stepOp _ c6Store)
  decide

/- ### Claim C7 -/

/-- C7: an import payload that fails to parse, or parses to a
primitive rather than an object, reaches the catch block: the caller is
handed an error and the store is untouched; a well-formed object never
fails, with missing or non-array `drivers` / `vehicles` fields replaced
by the empty list. -/
theorem c7_import_error_handling (st : StoreState) (d : ImportDoc) :
    importDataFromFile .badJson st = (st, .error) ∧
    importDataFromFile .nonObject st = (st, .error) ∧
    (importDataFromFile (.obj d) st).2 ≠ .error ∧
    (d.drivers.isArr = false → (importDataFromFile (.obj d) st).1.drivers = []) ∧
    (d.vehicles.isArr = false → (importDataFromFile (.obj d) st).1.vehicles = []) := by
  refine ⟨rfl, rfl, by simp [importDataFromFile], ?_, ?_⟩
  · intro h; cases hD : d.drivers <;> simp_all [importDataFromFile, JsonField.isArr, JsonField.arrOr]
  · intro h; cases hV : d.vehicles <;> simp_all [importDataFromFile, JsonField.isArr, JsonField.arrOr]

/-- C7 witness: the error-handling theorem applied to a junk payload, a
primitive payload and the concrete partially-shaped document. -/
theorem c7_import_error_handling_witness :
    importDataFromFile .badJson c6Store = (c6Store, .error) ∧
    importDataFromFile .nonObject c6Store = (c6Store, .error) ∧
    (c7Doc.drivers.isArr = false ∧ c7Doc.vehicles.isArr = false) ∧
    (importDataFromFile (.obj c7Doc) c6Store).1.drivers = [] ∧
    (importDataFromFile (.obj c7Doc) c6Store).1.vehicles = [] := by
  have h := c7_import_error_handling c6Store c7Doc
  exact ⟨h.1, h.2.1, ⟨rfl, rfl⟩, h.2.2.2.1 rfl, h.2.2.2.2 rfl⟩

/- ### Claim C8 -/

/-- C8: the custom range report of `initSummaryPage` bails out with the
validation alert — producing no summary at all — exactly when the start
date exceeds the end date lexicographically; otherwise it returns the
count and total revenue of precisely the activities `getActivitiesByPeriod`
selects for `[s, e]` (the handler re-implements the same inclusive
filter inline). -/
theorem c8_custom_range_validation (s e : String) (acts : List Activity) :
    (e < s → customRangeSummary s e acts = none) ∧
    (s ≤ e →
      customRangeSummary s e acts =
        some ((getActivitiesByPeriod s e acts).length,
          totalRev (getActivitiesByPeriod s e acts))) := by
  constructor
  · intro h
    simp [customRangeSummary, h]
  · intro h
    rw [customRangeSummary, if_neg (not_lt.mpr h)]
    rfl

/-- C8 witness: both branches of the validation theorem at concrete
dates — an inverted range yields no result, a proper range yields the
period totals. -/
theorem c8_custom_range_validation_witness :
    (("2026-01-01" : String) < "2026-02-01" ∧
      customRangeSummary "2026-02-01" "2026-01-01" [c2Act] = none) ∧
    (("2026-01-01" : String) ≤ "2026-12-31" ∧
      customRangeSummary "2026-01-01" "2026-12-31" [c2Act] =
        some ((getActivitiesByPeriod "2026-01-01" "2026-12-31" [c2Act]).length,
          totalRev (getActivitiesByPeriod "2026-01-01" "2026-12-31" [c2Act]))) :=
  ⟨⟨by rw [String.lt_iff_toList_lt]; decide,
    (c8_custom_range_validation "2026-02-01" "2026-01-01" [c2Act]).1
      (by rw [String.lt_iff_toList_lt]; decide)⟩,
   ⟨by rw [String.le_iff_toList_le]; decide,
    (c8_custom_range_validation "2026-01-01" "2026-12-31" [c2Act]).2
      (by rw [String.le_iff_toList_le]; decide)⟩⟩

/- ### Claim C9 -/

/-- The division the code performs agrees with the claim's
day-threshold comparison. -/
theorem isWithinDays_eq_claim (nowMs : ℤ) (n : ℕ) (d : String) :
    isWithinDays nowMs d n = withinDaysClaim nowMs n d := by
  unfold isWithinDays withinDaysClaim
  cases parseDate d with
  | none => rfl
  | some t =>
      simp only [decide_eq_decide]
      rw [div_le_iff₀ (by norm_num : (0 : ℚ) < 86400000)]

/-- C9: the weekly and monthly summaries count (and sum revenue over)
exactly the activities whose date parses and whose difference from the
caller's clock instant is at most 7 resp. 30 days — a condition any
activity with a negative difference (a future-dated record) satisfies —
while the daily summary selects by exact string equality of the date
against today's `YYYY-MM-DD` string; both clock readings (`today`,
`nowMs`) are parameters of the computation, not a fixed reporting
anchor. -/
theorem c9_summary_windows (acts : List Activity) (today : String) (nowMs : ℤ) :
    ((computeSummary today nowMs acts).daily =
      ((acts.filter fun a => a.date == today).length,
        totalRev (acts.filter fun a => a.date == today))) ∧
    ((computeSummary today nowMs acts).weekly =
      ((acts.filter fun a => withinDaysClaim nowMs 7 a.date).length,
        totalRev (acts.filter fun a => withinDaysClaim nowMs 7 a.date))) ∧
    ((computeSummary today nowMs acts).monthly =
      ((acts.filter fun a => withinDaysClaim nowMs 30 a.date).length,
        totalRev (acts.filter fun a => withinDaysClaim nowMs 30 a.date))) ∧
    (∀ (b : Activity) (t : ℤ), parseDate b.date = some t → nowMs - t < 0 →
      isWithinDays nowMs b.date 7 = true ∧ isWithinDays nowMs b.date 30 = true) := by
    refine ⟨?_, ?_, ?_, ?_⟩
    · show summarize (fun a => a.date == today) acts = _
      exact summarize_eq_filter _ _
    · show summarize (fun a => isWithinDays nowMs a.date 7) acts = _
      simp only [isWithinDays_eq_claim]
      exact summarize_eq_filter _ _
    · show summarize (fun a => isWithinDays nowMs a.date 30) acts = _
      simp only [isWithinDays_eq_claim]
      exact summarize_eq_filter _ _
    · intro b t hparse hneg
      have hq : ((nowMs : ℚ) - (t : ℚ)) < 0 := by
        have : ((nowMs - t : ℤ) : ℚ) < 0 := Int.cast_lt_zero.mpr hneg
        push_cast at this
        linarith
      constructor <;>
      · unfold isWithinDays
        rw [hparse]
        have hdiv : ((nowMs : ℚ) - (t : ℚ)) / 86400000 < 0 :=
          div_neg_of_neg_of_pos hq (by norm_num)
        simp only [decide_eq_true_eq]
        push_cast
        linarith

/-- C9 witness: at clock instant 0 with today = "1970-01-01", the
future-dated activity of 2026 has a negative difference and is counted
by both the weekly and the monthly window, while the daily summary
counts only exact matches of today's string. -/
theorem c9_summary_windows_witness :
    (parseDate c9Act.date = some (daysFromCivil 2026 1 10 * 86400000) ∧
      (0 : ℤ) - daysFromCivil 2026 1 10 * 86400000 < 0) ∧
    isWithinDays 0 c9Act.date 7 = true ∧
    isWithinDays 0 c9Act.date 30 = true ∧
    (computeSummary "1970-01-01" 0 [c9Act]).daily =
      (([c9Act].filter fun a => a.date == "1970-01-01").length,
        totalRev ([c9Act].filter fun a => a.date == "1970-01-01")) := by
  have h := c9_summary_windows [c9Act] "1970-01-01" 0
  have hparse : parseDate c9Act.date = some (daysFromCivil 2026 1 10 * 86400000) := by
    decide
  have hneg : (0 : ℤ) - daysFromCivil 2026 1 10 * 86400000 < 0 := by decide
  have hwin := h.2.2.2 c9Act (daysFromCivil 2026 1 10 * 86400000) hparse hneg
  exact ⟨⟨hparse, hneg⟩, hwin.1, hwin.2, h.1⟩

/- ### Claim C10 -/

/-- Field-level effect of merging converted legacy fields onto a
stored activity. -/
theorem mergeActivity_convert (a : Activity) (f : RouteFields) :
    mergeActivity a (convertRouteFields f) =
      { id := a.id,
        driverId := if truthyS f.driverId then f.driverId.getD a.driverId else a.driverId,
        vehicleId := if truthyS f.vehicleId then f.vehicleId.getD a.vehicleId else a.vehicleId,
        location := if truthyS f.routeName then f.routeName else a.location,
        date := if truthyS f.date then f.date.getD a.date else a.date,
        revenue := match f.cost with | some v => some v | none => a.revenue,
        routeName := a.routeName,
        cost := a.cost } := by
  cases f with
  | mk fd fv fr fdt fc =>
      cases fd <;> cases fv <;> cases fr <;> cases fdt <;> cases fc <;>
        simp [mergeActivity, convertRouteFields, truthyS] <;>
        split_ifs <;> simp

/-- C10: the CRUD shim does translate legacy field names.  `addRoute`
stores an activity whose `location` is `routeName` (the empty string
when `routeName` is absent or falsy) and whose `revenue` is `cost` (0
when `cost` is absent or falsy), with a fresh id, appended to the
store; `updateRoute` passes `updateActivity` a fields object in which a
truthy `routeName` has become `location` and a present `cost` (even a
falsy one — the shim checks `!== undefined` there) has become
`revenue`, so on a matched record those fields land on `location` and
`revenue`. -/
theorem c10_route_shim (freshId : String) (r : RouteInput) (st : StoreState) :
    ((r.routeName = none ∨ r.routeName = some "" →
        (addRoute freshId r st).1.location = some "") ∧
     (∀ s : String, s ≠ "" → r.routeName = some s →
        (addRoute freshId r st).1.location = some s) ∧
     (r.cost = none ∨ (∃ z, r.cost = some z ∧ truthyV z = false) →
        (addRoute freshId r st).1.revenue = some (.vnum 0)) ∧
     (∀ z : JSVal, truthyV z = true → r.cost = some z →
        (addRoute freshId r st).1.revenue = some z) ∧
     (addRoute freshId r st).1.id = freshId ∧
     (addRoute freshId r st).1.driverId = r.driverId ∧
     (addRoute freshId r st).1.vehicleId = r.vehicleId ∧
     (addRoute freshId r st).1.date = r.date ∧
     (addRoute freshId r st).2.activities = st.activities ++ [(addRoute freshId r st).1]) ∧
    (∀ (i : String) (f : RouteFields) (st2 : StoreState),
      updateRoute i f st2 =
        updateActivity i
          { id := none,
            driverId := if truthyS f.driverId then f.driverId else none,
            vehicleId := if truthyS f.vehicleId then f.vehicleId else none,
            location := if truthyS f.routeName then f.routeName else none,
            date := if truthyS f.date then f.date else none,
            revenue := f.cost } st2) ∧
    (∀ (i : String) (f : RouteFields) (a : Activity), a.id = i →
      ∀ (ds : List Driver) (vs : List Vehicle),
        (updateRoute i f ⟨ds, vs, [a]⟩).2.activities =
          [{ id := a.id,
             driverId := if truthyS f.driverId then f.driverId.getD a.driverId else a.driverId,
             vehicleId := if truthyS f.vehicleId then f.vehicleId.getD a.vehicleId else a.vehicleId,
             location := if truthyS f.routeName then f.routeName else a.location,
             date := if truthyS f.date then f.date.getD a.date else a.date,
             revenue := match f.cost with | some v => some v | none => a.revenue,
             routeName := a.routeName,
             cost := a.cost }]) := by
  refine ⟨⟨?_, ?_, ?_, ?_, rfl, rfl, rfl, rfl, rfl⟩, fun i f st2 => rfl, ?_⟩
  · rintro (h0 | h0) <;> simp [addRoute, addActivity, orElseS, h0]
  · intro s hs h0
    simp [addRoute, addActivity, orElseS, h0, hs]
  · rintro (h0 | ⟨z, hz, hzf⟩) <;> simp [addRoute, addActivity, orElseV, *]
  · intro z hz h0
    simp [addRoute, addActivity, orElseV, h0, hz]
  · intro i f a ha ds vs
    subst ha
    simp [updateRoute, updateActivity, updateFirst, mergeActivity_convert]

/-- C10 witness: the shim theorem applied to concrete inputs — the
added activity carries `location = "X"` and `revenue = 50`, and
updating the stored record with `{routeName:"Y", cost:0}` rewrites its
`location` to "Y" and its `revenue` to 0. -/
theorem c10_route_shim_witness :
    (addRoute "act-7" c10Route c4Store).1.location = some "X" ∧
    (addRoute "act-7" c10Route c4Store).1.revenue = some (.vnum 50) ∧
    (updateRoute "act-7" c10Fields ⟨[], [], [(addRoute "act-7" c10Route c4Store).1]⟩).2.activities =
      [{ id := "act-7", driverId := "drv-1", vehicleId := "veh-1",
         location := some "Y", date := "2026-01-01",
         revenue := some (.vnum 0), routeName := none, cost := none }] := by
  have h := c10_route_shim "act-7" c10Route c4Store
  refine ⟨h.1.2.1 "X" (by decide) rfl, h.1.2.2.2.1 (.vnum 50) (by decide) rfl, ?_⟩
  have h2 := (c10_route_shim "act-7" c10Route c4Store).2.2 "act-7" c10Fields
    (addRoute "act-7" c10Route c4Store).1 rfl [] []
  rw [h2]
  rfl

end Fleet
